import Mathlib

/-!
Verification of the Fansnap platform core (server.js + models.js) against its
natural-language specification.  The JavaScript in-memory model is shallowly
embedded: collections become lists, records become structures, JS numbers are
modelled as exact rationals, and the dynamically-typed request-body values that
matter for validation become an explicit `JSValue` type with the JS `typeof`
operator.  HTTP routes become functions from a global `State` to an
`Except ApiError` result paired with the successor state, and reachability is
closed under the list of state-changing routes.
-/

namespace Fansnap

/-- Dynamically typed JavaScript value, restricted to the shapes the modelled
routes inspect.  Numbers are modelled as exact rationals. -/
inductive JSValue where
  | vUndefined : JSValue
  | vNull : JSValue
  | vBool : Bool → JSValue
  | vNum : ℚ → JSValue
  | vStr : String → JSValue
  | vArr : List JSValue → JSValue
  | vObj : List (String × JSValue) → JSValue

/-- The JS `typeof` operator.  Note the classic quirk: `typeof null` is
"object", and arrays are also "object". -/
def typeofJS : JSValue → String
  | .vUndefined => "undefined"
  | .vNull => "object"
  | .vBool _ => "boolean"
  | .vNum _ => "number"
  | .vStr _ => "string"
  | .vArr _ => "object"
  | .vObj _ => "object"

/-- JS truthiness for the modelled values ('' and 0 are falsy). -/
def truthy : JSValue → Bool
  | .vUndefined => false
  | .vNull => false
  | .vBool b => b
  | .vNum q => q != 0
  | .vStr s => s != ""
  | .vArr _ => true
  | .vObj _ => true

def strVal : JSValue → String
  | .vStr s => s
  | _ => ""

def numVal : JSValue → ℚ
  | .vNum q => q
  | _ => 0

/-- Model of `Array.isArray`. -/
def isArrayJS : JSValue → Bool
  | .vArr _ => true
  | _ => false

/-- Spec-side notion: a mapping label→value (the declared type of
`socialLinks` in the specification). -/
def isMapping : JSValue → Bool
  | .vObj _ => true
  | _ => false

/-! ## Records (the in-memory data model of models.js) -/

structure Profile where
  bio : String
  profilePicture : String
  banner : String
  socialLinks : JSValue
  subscriptionPlans : JSValue

structure User where
  id : String
  username : String
  email : String
  passwordHash : String
  role : String
  createdAt : Nat
  profile : Profile

structure Post where
  id : String
  creatorId : String
  content : String
  type : String
  price : ℚ
  subscriberOnly : Bool
  tags : List String
  createdAt : Nat
  likes : ℚ
  views : ℚ
deriving DecidableEq

structure Subscription where
  id : String
  subscriberId : String
  creatorId : String
  plan : String
  status : String
  createdAt : Nat
deriving DecidableEq

structure StoreItem where
  id : String
  creatorId : String
  name : String
  description : JSValue
  price : ℚ
  createdAt : Nat

structure Order where
  id : String
  itemId : String
  buyerId : String
  status : String
  createdAt : Nat
deriving DecidableEq

structure Referral where
  id : String
  creatorId : String
  affiliateId : String
  code : String
  commission : ℚ
  signups : ℚ
  earnings : ℚ
  createdAt : Nat
deriving DecidableEq

structure Message where
  id : String
  senderId : String
  recipientId : String
  content : String
  createdAt : Nat
deriving DecidableEq

structure Tip where
  id : String
  senderId : String
  recipientId : String
  amount : ℚ
  createdAt : Nat
deriving DecidableEq

/-! ## models.js functions (pure, over the collection lists) -/

/-- Model of `getUserById` of models.js: `users.find(u => u.id === id) || null`. -/
def getUserById (users : List User) (i : String) : Option User :=
  users.find? fun u => u.id == i

/-- Model of `getUserByUsername` of models.js. -/
def getUserByUsername (users : List User) (username : String) : Option User :=
  users.find? fun u => u.username == username

/-- Model of `listPosts({creatorId, subscriberId})` of models.js: posts by the creator,
subscriber-only ones only when the requester holds an active subscription. -/
def listPosts (posts : List Post) (subscriptions : List Subscription)
    (creatorId : String) (subscriberId : Option String) : List Post :=
  posts.filter fun p =>
    if p.creatorId != creatorId then false
    else if !p.subscriberOnly then true
    else match subscriberId with
      | none => false
      | some sid =>
        subscriptions.any fun s =>
          s.creatorId == creatorId && s.subscriberId == sid && s.status == "active"

/-- Model of `findStoreItemById` of models.js. -/
def findStoreItemById (storeItems : List StoreItem) (i : String) : Option StoreItem :=
  storeItems.find? fun item => item.id == i

/-- Model of `getReferralByCode` of models.js. -/
def getReferralByCode (referrals : List Referral) (code : String) : Option Referral :=
  referrals.find? fun r => r.code == code

/-- In-place mutation of the first list element matching a code, as performed
through the reference returned by `referrals.find(...)` in models.js. -/
def updateFirstRef (l : List Referral) (code : String) (f : Referral → Referral) :
    List Referral :=
  match l with
  | [] => []
  | r :: rs => if r.code == code then f r :: rs else r :: updateFirstRef rs code f

/-- In-place mutation of the first user with a given id, as performed through
the object reference returned by `getUserById`. -/
def updateFirstUser (l : List User) (i : String) (f : User → User) : List User :=
  match l with
  | [] => []
  | u :: us => if u.id == i then f u :: us else u :: updateFirstUser us i f

/-- Model of `sendMessage` of models.js: unconditionally pushes the message. -/
def sendMessage (messages : List Message) (m : Message) : List Message :=
  messages ++ [m]

/-- Insertion into a JS `Set` iterated in insertion order. -/
def addPartner (l : List String) (x : String) : List String :=
  if x ∈ l then l else l ++ [x]

/-- The distinct conversation-partner ids accumulated by `listConversations`
of models.js (which then maps each id through `getUserById`). -/
def partnersOf (messages : List Message) (userId : String) : List String :=
  messages.foldl
    (fun acc m =>
      let acc1 := if m.senderId == userId then addPartner acc m.recipientId else acc
      if m.recipientId == userId then addPartner acc1 m.senderId else acc1)
    []

/-- Model of `listConversations` of models.js: partner ids mapped through `getUserById`. -/
def listConversations (users : List User) (messages : List Message) (userId : String) :
    List (Option User) :=
  (partnersOf messages userId).map (getUserById users)

/-- Model of `deletePostById` of models.js: splice out the first post with the id. -/
def deletePostById (posts : List Post) (postId : String) : Bool × List Post :=
  match posts with
  | [] => (false, [])
  | p :: ps =>
    if p.id == postId then (true, ps)
    else
      let r := deletePostById ps postId
      (r.1, p :: r.2)

/-- Character-list version of JS `String.prototype.includes`: does `hay`
contain `needle` as a contiguous run? -/
def charsLeadEq : List Char → List Char → Bool
  | [], _ => true
  | _ :: _, [] => false
  | a :: as, b :: bs => a == b && charsLeadEq as bs

def charsHasSub (needle hay : List Char) : Bool :=
  match hay with
  | [] => needle.isEmpty
  | _ :: t => charsLeadEq needle hay || charsHasSub needle t

/-- JS `hay.includes(needle)`. -/
def jsIncludes (hay needle : String) : Bool :=
  charsHasSub needle.toList hay.toList

/-- Model of `searchPosts(query)` of models.js: case-insensitive substring match over
content and tags. -/
def searchPosts (posts : List Post) (query : String) : List Post :=
  let q := query.toLower
  posts.filter fun p =>
    jsIncludes p.content.toLower q || p.tags.any fun tag => jsIncludes tag.toLower q

/-- JS object-destructuring field access: the value bound for key `k`, or
`undefined` when the key is absent from the request body. -/
def fieldOf (body : List (String × JSValue)) (k : String) : JSValue :=
  match body.find? (fun kv => kv.1 == k) with
  | some kv => kv.2
  | none => JSValue.vUndefined

/-- The profile merge performed by the `PUT /api/profile` route of server.js:
each recognized field is copied only when its dynamic type passes the route's
`typeof` / `Array.isArray` guard; everything else is silently ignored. -/
def updateProfile (body : List (String × JSValue)) (p : Profile) : Profile :=
  let bio := fieldOf body "bio"
  let pic := fieldOf body "profilePicture"
  let ban := fieldOf body "banner"
  let sl := fieldOf body "socialLinks"
  let sp := fieldOf body "subscriptionPlans"
  let p := if typeofJS bio == "string" then { p with bio := strVal bio } else p
  let p := if typeofJS pic == "string" then { p with profilePicture := strVal pic } else p
  let p := if typeofJS ban == "string" then { p with banner := strVal ban } else p
  let p := if typeofJS sl == "object" then { p with socialLinks := sl } else p
  let p := if isArrayJS sp then { p with subscriptionPlans := sp } else p
  p

/-! ## server.js routes as a state machine -/

/-- The error taxonomy of the route layer (HTTP status codes 404/409/400/401/403). -/
inductive ApiError where
  | notFound : ApiError
  | conflict : ApiError
  | invalidInput : ApiError
  | unauthenticated : ApiError
  | forbidden : ApiError
deriving DecidableEq

/-- The whole in-memory store of models.js. -/
structure State where
  users : List User
  posts : List Post
  subscriptions : List Subscription
  storeItems : List StoreItem
  orders : List Order
  referrals : List Referral
  messages : List Message
  tips : List Tip

def initState : State :=
  { users := [], posts := [], subscriptions := [], storeItems := [],
    orders := [], referrals := [], messages := [], tips := [] }

/-- Abstract model of the external bcrypt collaborator (`hash`); the core
never inspects the digest, only stores it. -/
def hashPw (password : String) : String :=
  "bcrypt$" ++ password

/-- The empty default profile `createUser` of models.js attaches to a new user. -/
def defaultProfile : Profile :=
  { bio := "", profilePicture := "", banner := "",
    socialLinks := .vObj [], subscriptionPlans := .vArr [] }

/-- Route `POST /api/register`: missing fields are rejected, then a duplicate
username is a conflict, then `createUser` pushes a user with an empty
default profile. -/
def registerRoute (s : State) (idv username email password role : String)
    (time : Nat) : Except ApiError (User × State) :=
  if username == "" || email == "" || password == "" then .error .invalidInput
  else if (getUserByUsername s.users username).isSome then .error .conflict
  else
    let u : User :=
      { id := idv, username := username, email := email,
        passwordHash := hashPw password, role := role, createdAt := time,
        profile := defaultProfile }
    .ok (u, { s with users := s.users ++ [u] })

/-- Route `PUT /api/profile`: requires a logged-in user, then merges the body into
that user's profile (see `updateProfile`); never fails afterwards. -/
def updateProfileRoute (s : State) (requester : String)
    (body : List (String × JSValue)) : Except ApiError (Profile × State) :=
  match getUserById s.users requester with
  | none => .error .unauthenticated
  | some u =>
    let p := updateProfile body u.profile
    let users := updateFirstUser s.users u.id fun w => { w with profile := p }
    .ok (p, { s with users := users })

/-- Route `POST /api/posts`: only creators may post, content must be truthy. -/
def createPostRoute (s : State) (requester idv content ptype : String)
    (price : ℚ) (subscriberOnly : Bool) (tags : List String) (time : Nat) :
    Except ApiError (Post × State) :=
  match getUserById s.users requester with
  | none => .error .unauthenticated
  | some u =>
    if u.role != "creator" then .error .forbidden
    else if content == "" then .error .invalidInput
    else
      let p : Post :=
        { id := idv, creatorId := u.id, content := content, type := ptype,
          price := price, subscriberOnly := subscriberOnly, tags := tags,
          createdAt := time, likes := 0, views := 0 }
      .ok (p, { s with posts := s.posts ++ [p] })

/-- Route `POST /api/subscribe/:creatorUsername`: creator must exist with role
"creator", self-subscription is rejected, then `subscribe` of models.js
unconditionally pushes a new record with status "active". -/
def subscribeRoute (s : State) (requester creatorUsername idv plan : String)
    (time : Nat) : Except ApiError (Subscription × State) :=
  match getUserById s.users requester with
  | none => .error .unauthenticated
  | some u =>
    match getUserByUsername s.users creatorUsername with
    | none => .error .notFound
    | some creator =>
      if creator.role != "creator" then .error .notFound
      else if creator.id == u.id then .error .invalidInput
      else
        let plan := if plan == "" then "monthly" else plan
        let sub : Subscription :=
          { id := idv, subscriberId := u.id, creatorId := creator.id,
            plan := plan, status := "active", createdAt := time }
        .ok (sub, { s with subscriptions := s.subscriptions ++ [sub] })

/-- Route `POST /api/store/:creatorUsername`: the requester must be the named
creator; then `!name || typeof price !== 'number'` is the ONLY input check
(notably, there is no `price >= 0` check). -/
def createStoreItemRoute (s : State) (requester creatorUsername idv : String)
    (name description price : JSValue) (time : Nat) :
    Except ApiError (StoreItem × State) :=
  match getUserById s.users requester with
  | none => .error .unauthenticated
  | some u =>
    match getUserByUsername s.users creatorUsername with
    | none => .error .forbidden
    | some creator =>
      if creator.id != u.id then .error .forbidden
      else if !truthy name || typeofJS price != "number" then .error .invalidInput
      else
        let item : StoreItem :=
          { id := idv, creatorId := u.id, name := strVal name,
            description := if truthy description then description else .vStr "",
            price := numVal price, createdAt := time }
        .ok (item, { s with storeItems := s.storeItems ++ [item] })

/-- Route `POST /api/order/:itemId`: absent item is NotFound, self-purchase is
rejected, otherwise an Order with status "pending" is pushed. -/
def placeOrderRoute (s : State) (requester itemId idv : String) (time : Nat) :
    Except ApiError (Order × State) :=
  match getUserById s.users requester with
  | none => .error .unauthenticated
  | some u =>
    match findStoreItemById s.storeItems itemId with
    | none => .error .notFound
    | some item =>
      if item.creatorId == u.id then .error .invalidInput
      else
        let o : Order :=
          { id := idv, itemId := item.id, buyerId := u.id, status := "pending",
            createdAt := time }
        .ok (o, { s with orders := s.orders ++ [o] })

/-- The `commission || 0.2` defaulting of the referral route: an absent or
zero (falsy) commission becomes 0.2; anything else is stored as given. -/
def commEffective (commission : Option ℚ) : ℚ :=
  match commission with
  | none => 0.2
  | some c => if c == 0 then 0.2 else c

/-- Route `POST /api/referral`: body creatorId defaults to the requester,
`commission || 0.2` defaults falsy commissions, and `createReferral`
unconditionally pushes the record — there is NO duplicate-code check. -/
def createReferralRoute (s : State) (requester : String)
    (creatorIdBody : Option String) (code : String) (commission : Option ℚ)
    (idv : String) (time : Nat) : Except ApiError (Referral × State) :=
  match getUserById s.users requester with
  | none => .error .unauthenticated
  | some u =>
    if code == "" then .error .invalidInput
    else
      let creatorId := creatorIdBody.getD u.id
      let comm : ℚ := commEffective commission
      let ref : Referral :=
        { id := idv, creatorId := creatorId, affiliateId := u.id, code := code,
          commission := comm, signups := 0, earnings := 0, createdAt := time }
      .ok (ref, { s with referrals := s.referrals ++ [ref] })

/-- Route `POST /api/referral/:code/signup` (no authentication check in the route):
increments `signups` of the first referral with the code, else NotFound. -/
def recordSignupRoute (s : State) (code : String) :
    Except ApiError (Referral × State) :=
  match getReferralByCode s.referrals code with
  | none => .error .notFound
  | some r =>
    let f := fun (r : Referral) => { r with signups := r.signups + 1 }
    .ok (f r, { s with referrals := updateFirstRef s.referrals code f })

/-- Route `POST /api/referral/:code/earn` (no authentication check in the route):
rejects non-numeric amounts, else `addReferralEarning` adds
`amount * commission` to the earnings of the first referral with the code. -/
def addEarningRoute (s : State) (code : String) (amount : JSValue) :
    Except ApiError (Referral × State) :=
  if typeofJS amount != "number" then .error .invalidInput
  else
    match getReferralByCode s.referrals code with
    | none => .error .notFound
    | some r =>
      let f := fun (r : Referral) =>
        { r with earnings := r.earnings + numVal amount * r.commission }
      .ok (f r, { s with referrals := updateFirstRef s.referrals code f })

/-- Route `POST /api/message/send`: recipient is looked up by username and may be
the requester — no self-message restriction exists. -/
def sendMessageRoute (s : State) (requester recipientUsername content idv : String)
    (time : Nat) : Except ApiError (Message × State) :=
  match getUserById s.users requester with
  | none => .error .unauthenticated
  | some u =>
    if recipientUsername == "" || content == "" then .error .invalidInput
    else
      match getUserByUsername s.users recipientUsername with
      | none => .error .notFound
      | some recipient =>
        let m : Message :=
          { id := idv, senderId := u.id, recipientId := recipient.id,
            content := content, createdAt := time }
        .ok (m, { s with messages := sendMessage s.messages m })

/-- Route `POST /api/tip/:creatorUsername`: amount must be a positive number, the
recipient a creator distinct from the requester. -/
def sendTipRoute (s : State) (requester creatorUsername : String)
    (amount : JSValue) (idv : String) (time : Nat) :
    Except ApiError (Tip × State) :=
  match getUserById s.users requester with
  | none => .error .unauthenticated
  | some u =>
    if typeofJS amount != "number" || numVal amount ≤ 0 then .error .invalidInput
    else
      match getUserByUsername s.users creatorUsername with
      | none => .error .notFound
      | some creator =>
        if creator.role != "creator" then .error .notFound
        else if creator.id == u.id then .error .invalidInput
        else
          let t : Tip :=
            { id := idv, senderId := u.id, recipientId := creator.id,
              amount := numVal amount, createdAt := time }
          .ok (t, { s with tips := s.tips ++ [t] })

/-- Route `DELETE /api/admin/posts/:postId`: admin only; splices the post out. -/
def deletePostRoute (s : State) (requester postId : String) :
    Except ApiError (Bool × State) :=
  match getUserById s.users requester with
  | none => .error .forbidden
  | some u =>
    if u.role != "admin" then .error .forbidden
    else
      let r := deletePostById s.posts postId
      if r.1 then .ok (true, { s with posts := r.2 }) else .error .notFound

/-- One state-changing API invocation, with the externally supplied fresh id
and clock value as explicit parameters. -/
inductive Action where
  | register (idv username email password role : String) (time : Nat)
  | updateProfileA (requester : String) (body : List (String × JSValue))
  | createPostA (requester idv content ptype : String) (price : ℚ)
      (subscriberOnly : Bool) (tags : List String) (time : Nat)
  | subscribeA (requester creatorUsername idv plan : String) (time : Nat)
  | createStoreItemA (requester creatorUsername idv : String)
      (name description price : JSValue) (time : Nat)
  | placeOrderA (requester itemId idv : String) (time : Nat)
  | createReferralA (requester : String) (creatorIdBody : Option String)
      (code : String) (commission : Option ℚ) (idv : String) (time : Nat)
  | recordSignupA (code : String)
  | addEarningA (code : String) (amount : JSValue)
  | sendMessageA (requester recipientUsername content idv : String) (time : Nat)
  | sendTipA (requester creatorUsername : String) (amount : JSValue)
      (idv : String) (time : Nat)
  | deletePostA (requester postId : String)

/-- Successor state of a route result (a failed route leaves the store
untouched: every route checks before it pushes). -/
def resState {α : Type} (r : Except ApiError (α × State)) (s : State) : State :=
  match r with
  | .ok (_, s2) => s2
  | .error _ => s

def applyAction (s : State) (a : Action) : State :=
  match a with
  | .register idv username email password role time =>
    resState (registerRoute s idv username email password role time) s
  | .updateProfileA requester body =>
    resState (updateProfileRoute s requester body) s
  | .createPostA requester idv content ptype price so tags time =>
    resState (createPostRoute s requester idv content ptype price so tags time) s
  | .subscribeA requester creatorUsername idv plan time =>
    resState (subscribeRoute s requester creatorUsername idv plan time) s
  | .createStoreItemA requester creatorUsername idv name description price time =>
    resState (createStoreItemRoute s requester creatorUsername idv name description price time) s
  | .placeOrderA requester itemId idv time =>
    resState (placeOrderRoute s requester itemId idv time) s
  | .createReferralA requester creatorIdBody code commission idv time =>
    resState (createReferralRoute s requester creatorIdBody code commission idv time) s
  | .recordSignupA code =>
    resState (recordSignupRoute s code) s
  | .addEarningA code amount =>
    resState (addEarningRoute s code amount) s
  | .sendMessageA requester recipientUsername content idv time =>
    resState (sendMessageRoute s requester recipientUsername content idv time) s
  | .sendTipA requester creatorUsername amount idv time =>
    resState (sendTipRoute s requester creatorUsername amount idv time) s
  | .deletePostA requester postId =>
    resState (deletePostRoute s requester postId) s

def runActions (s : State) (l : List Action) : State :=
  l.foldl applyAction s

/-- A store state reachable from the empty store through the API. -/
def Reachable (s : State) : Prop :=
  ∃ l : List Action, runActions initState l = s

/-! ## Spec-side definitions and auxiliary projections -/

/-- Spec-side statement of the profile-merge policy (amended claim C8): each
recognized field is overwritten independently exactly when its value passes
the route's dynamic-type guard — `typeof x === 'string'` for the three string
fields, `typeof x === 'object'` for socialLinks (hence also null and arrays),
`Array.isArray` for subscriptionPlans; every other body field is ignored. -/
def specUpdateProfile (body : List (String × JSValue)) (p : Profile) : Profile :=
  { bio :=
      if typeofJS (fieldOf body "bio") == "string" then strVal (fieldOf body "bio")
      else p.bio,
    profilePicture :=
      if typeofJS (fieldOf body "profilePicture") == "string" then
        strVal (fieldOf body "profilePicture")
      else p.profilePicture,
    banner :=
      if typeofJS (fieldOf body "banner") == "string" then strVal (fieldOf body "banner")
      else p.banner,
    socialLinks :=
      if typeofJS (fieldOf body "socialLinks") == "object" then fieldOf body "socialLinks"
      else p.socialLinks,
    subscriptionPlans :=
      if isArrayJS (fieldOf body "subscriptionPlans") then fieldOf body "subscriptionPlans"
      else p.subscriptionPlans }

/-- Did the route succeed? -/
def isOkE {α : Type} : Except ApiError α → Bool
  | .ok _ => true
  | .error _ => false

/-- Code of the referral returned by a referral route, when it succeeded. -/
def okRefCode : Except ApiError (Referral × State) → Option String
  | .ok (ref, _) => some ref.code
  | .error _ => none

/-- Earnings of the referral returned by a referral route, when it succeeded. -/
def okRefEarnings : Except ApiError (Referral × State) → Option ℚ
  | .ok (ref, _) => some ref.earnings
  | .error _ => none

/-- Price of the store item returned by the store route, when it succeeded. -/
def routePrice : Except ApiError (StoreItem × State) → Option ℚ
  | .ok (item, _) => some item.price
  | .error _ => none

/-- Earnings of the i-th referral record of the store (0 when absent). -/
def earningsAt (s : State) (i : Nat) : ℚ :=
  ((s.referrals[i]?).map Referral.earnings).getD 0

/-- Side condition of the amended claim C4: the action, if it records an
earning or creates a referral, does so with a non-negative amount resp.
commission. -/
def actionEarnOkB : Action → Bool
  | .addEarningA _ amount => decide (0 ≤ numVal amount)
  | .createReferralA _ _ _ commission _ _ =>
    match commission with
    | some c => decide (0 ≤ c)
    | none => true
  | _ => true

/-- Spec-side notion: `needle` occurs in `hay` as a substring,
case-insensitively (both sides lowercased). -/
def CiContains (hay needle : String) : Prop :=
  ∃ pre post, hay.toLower.toList = pre ++ needle.toLower.toList ++ post

/-- No-self-purchase invariant (claim C6): every order's buyer differs from
the creator of the store item the order references. -/
def OrdersInv (s : State) : Prop :=
  ∀ o ∈ s.orders, ∃ item, findStoreItemById s.storeItems o.itemId = some item ∧
    o.buyerId ≠ item.creatorId

/-! ## Concrete demonstration data (used by witnesses and counterexamples) -/

def anaUser : User :=
  { id := "u1", username := "ana", email := "ana@example.com",
    passwordHash := hashPw "pw", role := "creator", createdAt := 0,
    profile := defaultProfile }

def boUser : User :=
  { id := "u2", username := "bo", email := "bo@example.com",
    passwordHash := hashPw "pw", role := "subscriber", createdAt := 0,
    profile := defaultProfile }

def demoUsersState : State :=
  { initState with users := [anaUser, boUser] }

def demoReferral : Referral :=
  { id := "r1", creatorId := "u1", affiliateId := "u1", code := "REF",
    commission := 0.2, signups := 0, earnings := 0, createdAt := 1 }

def refDemoState : State :=
  { demoUsersState with referrals := [demoReferral] }

def demoItem : StoreItem :=
  { id := "i1", creatorId := "u1", name := "sticker", description := .vStr "",
    price := 5, createdAt := 0 }

def itemDemoState : State :=
  { demoUsersState with storeItems := [demoItem] }

def activeSubDemo : Subscription :=
  { id := "s0", subscriberId := "u2", creatorId := "u1", plan := "monthly",
    status := "active", createdAt := 0 }

def subDemoState : State :=
  { demoUsersState with subscriptions := [activeSubDemo] }

/-- Register ana, then create the referral code "REF" twice. -/
def dupCodeActions : List Action :=
  [.register "u1" "ana" "ana@example.com" "pw" "creator" 0,
   .createReferralA "u1" none "REF" none "r1" 1,
   .createReferralA "u1" none "REF" none "r2" 2]

/-- Register ana, create code "REF" (default commission 0.2), earn 100. -/
def negEarnActions1 : List Action :=
  dupCodeActions.take 2 ++ [.addEarningA "REF" (.vNum 100)]

/-- ... then record an earning with the negative numeric amount −50. -/
def negEarnActions2 : List Action :=
  negEarnActions1 ++ [.addEarningA "REF" (.vNum (-50))]

/-! ## Helper lemmas -/

theorem charsLeadEq_iff (n : List Char) : ∀ h : List Char,
    charsLeadEq n h = true ↔ ∃ t, h = n ++ t := by
  induction n with
  | nil =>
    intro h
    simp [charsLeadEq]
  | cons a as ih =>
    intro h
    cases h with
    | nil => simp [charsLeadEq]
    | cons b bs =>
      simp only [charsLeadEq, Bool.and_eq_true, beq_iff_eq, ih bs, List.cons_append]
      constructor
      · rintro ⟨rfl, t, rfl⟩
        exact ⟨t, rfl⟩
      · rintro ⟨t, heq⟩
        cases heq
        exact ⟨rfl, t, rfl⟩

theorem charsHasSub_iff (n : List Char) : ∀ h : List Char,
    charsHasSub n h = true ↔ ∃ pre post, h = pre ++ n ++ post := by
  intro h
  induction h with
  | nil =>
    cases n <;> simp [charsHasSub, List.isEmpty]
  | cons b bs ih =>
    simp only [charsHasSub, Bool.or_eq_true, charsLeadEq_iff, ih]
    constructor
    · rintro (⟨t, heq⟩ | ⟨pre, post, rfl⟩)
      · exact ⟨[], t, by simp [heq]⟩
      · exact ⟨b :: pre, post, by simp⟩
    · rintro ⟨pre, post, heq⟩
      cases pre with
      | nil =>
        left
        exact ⟨post, by simpa using heq⟩
      | cons c pre2 =>
        right
        rw [List.cons_append, List.cons_append] at heq
        injection heq with _ h2
        exact ⟨pre2, post, h2⟩

theorem jsIncludes_iff (hay needle : String) :
    jsIncludes hay needle = true ↔
      ∃ pre post, hay.toList = pre ++ needle.toList ++ post := by
  exact charsHasSub_iff needle.toList hay.toList

theorem mem_addPartner_self (l : List String) (x : String) : x ∈ addPartner l x := by
  unfold addPartner
  split
  · assumption
  · simp

theorem mem_addPartner_of_mem (l : List String) (x y : String) (h : y ∈ l) :
    y ∈ addPartner l x := by
  unfold addPartner
  split
  · exact h
  · simp [h]

/-! ## Claim theorems -/

/-- C1: `listPosts` returns exactly the posts authored by the creator that
pass the gating predicate — a public post always, a subscriber-only post iff
the requester is present and some subscription record matches
(subscriberId = requester, creatorId = creator, status "active"); an absent
requester sees no subscriber-only post. -/
theorem listPosts_gating (posts : List Post) (subs : List Subscription)
    (c : String) (r : Option String) (p : Post) :
    p ∈ listPosts posts subs c r ↔
      p ∈ posts ∧ p.creatorId = c ∧
        (p.subscriberOnly = false ∨
          ∃ sid, r = some sid ∧ ∃ sub ∈ subs,
            sub.subscriberId = sid ∧ sub.creatorId = c ∧ sub.status = "active") := by
  simp only [listPosts, List.mem_filter]
  refine and_congr_right fun _ => ?_
  by_cases hc : p.creatorId = c
  · by_cases hso : p.subscriberOnly
    · cases r with
      | none => simp [hc, hso]
      | some sid =>
        simp [hc, hso, List.any_eq_true]
        constructor
        · rintro ⟨x, hx, ⟨h1, h2⟩, h3⟩
          exact ⟨x, hx, h2, h1, h3⟩
        · rintro ⟨x, hx, h2, h1, h3⟩
          exact ⟨x, hx, ⟨h1, h2⟩, h3⟩
    · simp [hc, hso]
  · simp [hc]

/-- C9: `searchPosts q` returns exactly the posts whose content contains `q`
case-insensitively or one of whose tags contains `q` case-insensitively; it is
a pure read over the post collection. -/
theorem searchPosts_spec (posts : List Post) (q : String) (p : Post) :
    p ∈ searchPosts posts q ↔
      p ∈ posts ∧ (CiContains p.content q ∨ ∃ t ∈ p.tags, CiContains t q) := by
  simp only [searchPosts, List.mem_filter, Bool.or_eq_true, List.any_eq_true,
    jsIncludes_iff, CiContains]

/-- C10: self-messages are accepted — `sendMessage` with sender = recipient = u
appends the record like any other, and `listConversations` afterwards lists u
itself among the distinct conversation partners. -/
theorem selfMessage_conversations (users : List User) (msgs : List Message)
    (u idv content : String) (t : Nat) :
    sendMessage msgs ⟨idv, u, u, content, t⟩ = msgs ++ [⟨idv, u, u, content, t⟩] ∧
    u ∈ partnersOf (sendMessage msgs ⟨idv, u, u, content, t⟩) u ∧
    getUserById users u ∈
      listConversations users (sendMessage msgs ⟨idv, u, u, content, t⟩) u := by
  refine ⟨rfl, ?_, ?_⟩
  · unfold sendMessage partnersOf
    rw [List.foldl_append]
    simp only [List.foldl_cons, List.foldl_nil, beq_self_eq_true, if_true]
    exact mem_addPartner_self _ u
  · unfold listConversations
    refine List.mem_map_of_mem (getUserById users) ?_
    unfold sendMessage partnersOf
    rw [List.foldl_append]
    simp only [List.foldl_cons, List.foldl_nil, beq_self_eq_true, if_true]
    exact mem_addPartner_self _ u

/-- C8 counterexample: the request body field `socialLinks: null` is not a
mapping, yet the merge overwrites the profile's socialLinks with null,
because JS `typeof null` is "object" — so a recognized field with a
wrong-typed value does NOT always leave the profile field unchanged. -/
theorem updateProfile_null_socialLinks_cex :
    isMapping .vNull = false ∧
    (updateProfile [("socialLinks", .vNull)] defaultProfile).socialLinks = .vNull ∧
    defaultProfile.socialLinks ≠ .vNull :=
  ⟨rfl, rfl, fun h => nomatch h⟩

/-- C8 (amended): the merge overwrites exactly the recognized fields whose
values pass the route's dynamic-type guards (string for bio, profilePicture,
banner; `typeof === 'object'` — i.e. mapping, array, or null — for
socialLinks; array for subscriptionPlans), each field independently;
everything else in the body is ignored, every untouched profile field is
kept, and the authenticated route never reports an error. -/
theorem updateProfile_merges_typed_fields (body : List (String × JSValue)) (p : Profile) :
    updateProfile body p = specUpdateProfile body p ∧
    (∀ (s : State) (requester : String) (u : User),
      getUserById s.users requester = some u →
      isOkE (updateProfileRoute s requester body) = true) := by
  constructor
  · by_cases h1 : typeofJS (fieldOf body "bio") = "string" <;>
    by_cases h2 : typeofJS (fieldOf body "profilePicture") = "string" <;>
    by_cases h3 : typeofJS (fieldOf body "banner") = "string" <;>
    by_cases h4 : typeofJS (fieldOf body "socialLinks") = "object" <;>
    by_cases h5 : isArrayJS (fieldOf body "subscriptionPlans") = true <;>
    simp [updateProfile, specUpdateProfile, h1, h2, h3, h4, h5]
  · intro s requester u hu
    simp [updateProfileRoute, hu, isOkE]

/-- C8 witness: a body whose socialLinks is null and whose bio is a number is
merged per the guards (bio ignored, socialLinks overwritten), and the route
succeeds for a logged-in user. -/
theorem updateProfile_merges_typed_fields_witness :
    (updateProfile [("bio", .vNum 3), ("socialLinks", .vNull)] defaultProfile =
      specUpdateProfile [("bio", .vNum 3), ("socialLinks", .vNull)] defaultProfile) ∧
    isOkE (updateProfileRoute demoUsersState "u1" [("bio", .vNum 3), ("socialLinks", .vNull)]) = true :=
  ⟨(updateProfile_merges_typed_fields [("bio", .vNum 3), ("socialLinks", .vNull)] defaultProfile).1,
   (updateProfile_merges_typed_fields [("bio", .vNum 3), ("socialLinks", .vNull)] defaultProfile).2
     demoUsersState "u1" anaUser rfl⟩

/-- C2 counterexample: creating the referral code "REF" a second time does
NOT fail with Conflict — it succeeds, and the resulting reachable store holds
two Referral records with the same code, violating the claimed uniqueness. -/
theorem createReferral_duplicate_code_cex :
    Reachable (runActions initState dupCodeActions) ∧
    (runActions initState dupCodeActions).referrals.map Referral.code = ["REF", "REF"] ∧
    (getReferralByCode (runActions initState (dupCodeActions.take 2)).referrals "REF").isSome
      = true ∧
    okRefCode (createReferralRoute (runActions initState (dupCodeActions.take 2))
      "u1" none "REF" none "r2" 2) = some "REF" :=
  ⟨⟨dupCodeActions, rfl⟩, by decide, by decide, by decide⟩

/-- C4 counterexample: the earn route accepts the negative numeric amount
−50 (typeof −50 is "number"), and the referral's earnings drop from 20 to
10 — earnings are not monotonically non-decreasing. -/
theorem recordEarning_negative_amount_cex :
    Reachable (runActions initState negEarnActions2) ∧
    (runActions initState negEarnActions1).referrals.map Referral.earnings = [20] ∧
    (runActions initState negEarnActions2).referrals.map Referral.earnings = [10] ∧
    okRefEarnings (addEarningRoute (runActions initState negEarnActions1) "REF"
      (.vNum (-50))) = some 10 ∧
    (10 : ℚ) < 20 := by
  refine ⟨⟨negEarnActions2, rfl⟩, ?_, ?_, ?_, by norm_num⟩ <;>
    norm_num [runActions, negEarnActions1, negEarnActions2, dupCodeActions, applyAction,
      resState, registerRoute, createReferralRoute, commEffective, addEarningRoute,
      getUserByUsername, getUserById, getReferralByCode, updateFirstRef, hashPw,
      initState, numVal, typeofJS, okRefEarnings, defaultProfile, List.find?]

/-- C7 counterexample: the store-item route checks only
`!name || typeof price !== 'number'`; with a negative numeric price −5 the
creation SUCCEEDS (price −5 is stored) instead of failing with InvalidInput. -/
theorem createStoreItem_negative_price_cex :
    routePrice (createStoreItemRoute demoUsersState "u1" "ana" "i1"
      (.vStr "sticker") .vUndefined (.vNum (-5)) 0) = some (-5) ∧
    ((-5 : ℚ) < 0) :=
  ⟨by decide, by decide⟩

/-! Per-route characterizations of the successor state on success.  Every
route lemma reports how the four ledgers relevant to the invariants
(subscriptions, orders, storeItems, referrals) relate to the previous
state, plus route-specific facts. -/

theorem registerRoute_ok (s : State) (idv un em pw role : String) (t : Nat)
    (x : User) (s2 : State)
    (h : registerRoute s idv un em pw role t = .ok (x, s2)) :
    s2.subscriptions = s.subscriptions ∧ s2.orders = s.orders ∧
    s2.storeItems = s.storeItems ∧ s2.referrals = s.referrals := by
  simp only [registerRoute] at h
  repeat' split at h
  all_goals
    first
      | exact Except.noConfusion h
      | (injection h with h1
         injection h1 with h2 h3
         subst h3
         exact ⟨rfl, rfl, rfl, rfl⟩)

theorem updateProfileRoute_ok (s : State) (requester : String)
    (body : List (String × JSValue)) (x : Profile) (s2 : State)
    (h : updateProfileRoute s requester body = .ok (x, s2)) :
    s2.subscriptions = s.subscriptions ∧ s2.orders = s.orders ∧
    s2.storeItems = s.storeItems ∧ s2.referrals = s.referrals := by
  simp only [updateProfileRoute] at h
  repeat' split at h
  all_goals
    first
      | exact Except.noConfusion h
      | (injection h with h1
         injection h1 with h2 h3
         subst h3
         exact ⟨rfl, rfl, rfl, rfl⟩)

theorem createPostRoute_ok (s : State) (requester idv content ptype : String)
    (price : ℚ) (so : Bool) (tags : List String) (t : Nat) (x : Post) (s2 : State)
    (h : createPostRoute s requester idv content ptype price so tags t = .ok (x, s2)) :
    s2.subscriptions = s.subscriptions ∧ s2.orders = s.orders ∧
    s2.storeItems = s.storeItems ∧ s2.referrals = s.referrals := by
  simp only [createPostRoute] at h
  repeat' split at h
  all_goals
    first
      | exact Except.noConfusion h
      | (injection h with h1
         injection h1 with h2 h3
         subst h3
         exact ⟨rfl, rfl, rfl, rfl⟩)

theorem sendMessageRoute_ok (s : State) (requester ru content idv : String) (t : Nat)
    (x : Message) (s2 : State)
    (h : sendMessageRoute s requester ru content idv t = .ok (x, s2)) :
    s2.subscriptions = s.subscriptions ∧ s2.orders = s.orders ∧
    s2.storeItems = s.storeItems ∧ s2.referrals = s.referrals := by
  simp only [sendMessageRoute] at h
  repeat' split at h
  all_goals
    first
      | exact Except.noConfusion h
      | (injection h with h1
         injection h1 with h2 h3
         subst h3
         exact ⟨rfl, rfl, rfl, rfl⟩)

theorem sendTipRoute_ok (s : State) (requester cu : String) (amount : JSValue)
    (idv : String) (t : Nat) (x : Tip) (s2 : State)
    (h : sendTipRoute s requester cu amount idv t = .ok (x, s2)) :
    s2.subscriptions = s.subscriptions ∧ s2.orders = s.orders ∧
    s2.storeItems = s.storeItems ∧ s2.referrals = s.referrals := by
  simp only [sendTipRoute] at h
  repeat' split at h
  all_goals
    first
      | exact Except.noConfusion h
      | (injection h with h1
         injection h1 with h2 h3
         subst h3
         exact ⟨rfl, rfl, rfl, rfl⟩)

theorem deletePostRoute_ok (s : State) (requester postId : String) (b : Bool)
    (s2 : State) (h : deletePostRoute s requester postId = .ok (b, s2)) :
    s2.subscriptions = s.subscriptions ∧ s2.orders = s.orders ∧
    s2.storeItems = s.storeItems ∧ s2.referrals = s.referrals := by
  simp only [deletePostRoute] at h
  repeat' split at h
  all_goals
    first
      | exact Except.noConfusion h
      | (injection h with h1
         injection h1 with h2 h3
         subst h3
         exact ⟨rfl, rfl, rfl, rfl⟩)

theorem subscribeRoute_ok (s : State) (requester cu idv plan : String) (t : Nat)
    (sub : Subscription) (s2 : State)
    (h : subscribeRoute s requester cu idv plan t = .ok (sub, s2)) :
    s2.subscriptions = s.subscriptions ++ [sub] ∧ s2.orders = s.orders ∧
    s2.storeItems = s.storeItems ∧ s2.referrals = s.referrals ∧
    sub.status = "active" ∧ sub.subscriberId ≠ sub.creatorId := by
  simp only [subscribeRoute] at h
  repeat' split at h
  all_goals
    first
      | exact Except.noConfusion h
      | (injection h with h1
         injection h1 with h2 h3
         subst h3
         subst h2
         refine ⟨rfl, rfl, rfl, rfl, rfl, fun heq => ?_⟩
         simp_all)

theorem createStoreItemRoute_ok (s : State) (requester cu idv : String)
    (name description price : JSValue) (t : Nat) (it : StoreItem) (s2 : State)
    (h : createStoreItemRoute s requester cu idv name description price t = .ok (it, s2)) :
    s2.storeItems = s.storeItems ++ [it] ∧ s2.subscriptions = s.subscriptions ∧
    s2.orders = s.orders ∧ s2.referrals = s.referrals := by
  simp only [createStoreItemRoute] at h
  repeat' split at h
  all_goals
    first
      | exact Except.noConfusion h
      | (injection h with h1
         injection h1 with h2 h3
         subst h3
         subst h2
         exact ⟨rfl, rfl, rfl, rfl⟩)

theorem createReferralRoute_ok (s : State) (requester : String) (cb : Option String)
    (code : String) (comm : Option ℚ) (idv : String) (t : Nat) (r : Referral)
    (s2 : State)
    (h : createReferralRoute s requester cb code comm idv t = .ok (r, s2)) :
    s2.referrals = s.referrals ++ [r] ∧ r.earnings = 0 ∧
    r.commission = commEffective comm ∧
    s2.subscriptions = s.subscriptions ∧ s2.orders = s.orders ∧
    s2.storeItems = s.storeItems := by
  simp only [createReferralRoute] at h
  repeat' split at h
  all_goals
    first
      | exact Except.noConfusion h
      | (injection h with h1
         injection h1 with h2 h3
         subst h3
         subst h2
         exact ⟨rfl, rfl, rfl, rfl, rfl, rfl⟩)

theorem recordSignupRoute_ok (s : State) (code : String) (r : Referral) (s2 : State)
    (h : recordSignupRoute s code = .ok (r, s2)) :
    s2.referrals = updateFirstRef s.referrals code
      (fun r2 => { r2 with signups := r2.signups + 1 }) ∧
    s2.subscriptions = s.subscriptions ∧ s2.orders = s.orders ∧
    s2.storeItems = s.storeItems := by
  simp only [recordSignupRoute] at h
  repeat' split at h
  all_goals
    first
      | exact Except.noConfusion h
      | (injection h with h1
         injection h1 with h2 h3
         subst h3
         exact ⟨rfl, rfl, rfl, rfl⟩)

theorem addEarningRoute_ok (s : State) (code : String) (amount : JSValue)
    (r : Referral) (s2 : State)
    (h : addEarningRoute s code amount = .ok (r, s2)) :
    (∃ q : ℚ, amount = .vNum q ∧
      s2.referrals = updateFirstRef s.referrals code
        (fun r2 => { r2 with earnings := r2.earnings + q * r2.commission })) ∧
    s2.subscriptions = s.subscriptions ∧ s2.orders = s.orders ∧
    s2.storeItems = s.storeItems := by
  cases amount with
  | vNum q =>
    simp only [addEarningRoute, typeofJS] at h
    repeat' split at h
    all_goals
      first
        | exact Except.noConfusion h
        | (injection h with h1
           injection h1 with h2 h3
           subst h3
           exact ⟨⟨q, rfl, rfl⟩, rfl, rfl, rfl⟩)
  | vUndefined => simp [addEarningRoute, typeofJS] at h
  | vNull => simp [addEarningRoute, typeofJS] at h
  | vBool b => simp [addEarningRoute, typeofJS] at h
  | vStr str => simp [addEarningRoute, typeofJS] at h
  | vArr l2 => simp [addEarningRoute, typeofJS] at h
  | vObj l2 => simp [addEarningRoute, typeofJS] at h

theorem placeOrderRoute_ok (s : State) (requester itemId idv : String) (t : Nat)
    (o : Order) (s2 : State)
    (h : placeOrderRoute s requester itemId idv t = .ok (o, s2)) :
    s2.orders = s.orders ++ [o] ∧ s2.subscriptions = s.subscriptions ∧
    s2.storeItems = s.storeItems ∧ s2.referrals = s.referrals ∧
    ∃ item, findStoreItemById s.storeItems o.itemId = some item ∧
      o.buyerId ≠ item.creatorId := by
  simp only [placeOrderRoute] at h
  cases hu : getUserById s.users requester with
  | none =>
    simp only [hu] at h
    exact Except.noConfusion h
  | some u =>
    simp only [hu] at h
    cases hfind : findStoreItemById s.storeItems itemId with
    | none =>
      simp only [hfind] at h
      exact Except.noConfusion h
    | some item =>
      simp only [hfind] at h
      by_cases hne : (item.creatorId == u.id) = true
      · rw [if_pos hne] at h
        exact Except.noConfusion h
      · rw [if_neg hne] at h
        injection h with h1
        injection h1 with h2 h3
        subst h3
        subst h2
        refine ⟨rfl, rfl, rfl, rfl, item, ?_, ?_⟩
        · have hfind2 : List.find? (fun x => x.id == itemId) s.storeItems = some item :=
            hfind
          have hid := List.find?_some hfind2
          have hid2 : item.id = itemId := by simpa using hid
          show findStoreItemById s.storeItems item.id = some item
          rw [hid2]
          exact hfind
        · intro heq
          apply hne
          have h4 : u.id = item.creatorId := heq
          simp [h4]

/-- Across any single API action, the subscription ledger is unchanged or
grows by one record that is never a self-subscription. -/
theorem subscriptions_applyAction (s : State) (a : Action) :
    (applyAction s a).subscriptions = s.subscriptions ∨
    ∃ sub, (applyAction s a).subscriptions = s.subscriptions ++ [sub] ∧
      sub.subscriberId ≠ sub.creatorId := by
  cases a with
  | register idv un em pw role t =>
    simp only [applyAction]
    rcases h : registerRoute s idv un em pw role t with e | ⟨x, s2⟩
    · exact Or.inl rfl
    · exact Or.inl (registerRoute_ok s idv un em pw role t x s2 h).1
  | updateProfileA requester body =>
    simp only [applyAction]
    rcases h : updateProfileRoute s requester body with e | ⟨x, s2⟩
    · exact Or.inl rfl
    · exact Or.inl (updateProfileRoute_ok s requester body x s2 h).1
  | createPostA requester idv content ptype price so tags t =>
    simp only [applyAction]
    rcases h : createPostRoute s requester idv content ptype price so tags t with e | ⟨x, s2⟩
    · exact Or.inl rfl
    · exact Or.inl (createPostRoute_ok s requester idv content ptype price so tags t x s2 h).1
  | subscribeA requester cu idv plan t =>
    simp only [applyAction]
    rcases h : subscribeRoute s requester cu idv plan t with e | ⟨sub, s2⟩
    · exact Or.inl rfl
    · obtain ⟨h1, _, _, _, _, h6⟩ := subscribeRoute_ok s requester cu idv plan t sub s2 h
      exact Or.inr ⟨sub, h1, h6⟩
  | createStoreItemA requester cu idv name description price t =>
    simp only [applyAction]
    rcases h : createStoreItemRoute s requester cu idv name description price t with e | ⟨x, s2⟩
    · exact Or.inl rfl
    · exact Or.inl (createStoreItemRoute_ok s requester cu idv name description price t x s2 h).2.1
  | placeOrderA requester itemId idv t =>
    simp only [applyAction]
    rcases h : placeOrderRoute s requester itemId idv t with e | ⟨x, s2⟩
    · exact Or.inl rfl
    · exact Or.inl (placeOrderRoute_ok s requester itemId idv t x s2 h).2.1
  | createReferralA requester cb code comm idv t =>
    simp only [applyAction]
    rcases h : createReferralRoute s requester cb code comm idv t with e | ⟨x, s2⟩
    · exact Or.inl rfl
    · exact Or.inl (createReferralRoute_ok s requester cb code comm idv t x s2 h).2.2.2.1
  | recordSignupA code =>
    simp only [applyAction]
    rcases h : recordSignupRoute s code with e | ⟨x, s2⟩
    · exact Or.inl rfl
    · exact Or.inl (recordSignupRoute_ok s code x s2 h).2.1
  | addEarningA code amount =>
    simp only [applyAction]
    rcases h : addEarningRoute s code amount with e | ⟨x, s2⟩
    · exact Or.inl rfl
    · exact Or.inl (addEarningRoute_ok s code amount x s2 h).2.1
  | sendMessageA requester ru content idv t =>
    simp only [applyAction]
    rcases h : sendMessageRoute s requester ru content idv t with e | ⟨x, s2⟩
    · exact Or.inl rfl
    · exact Or.inl (sendMessageRoute_ok s requester ru content idv t x s2 h).1
  | sendTipA requester cu amount idv t =>
    simp only [applyAction]
    rcases h : sendTipRoute s requester cu amount idv t with e | ⟨x, s2⟩
    · exact Or.inl rfl
    · exact Or.inl (sendTipRoute_ok s requester cu amount idv t x s2 h).1
  | deletePostA requester postId =>
    simp only [applyAction]
    rcases h : deletePostRoute s requester postId with e | ⟨x, s2⟩
    · exact Or.inl rfl
    · exact Or.inl (deletePostRoute_ok s requester postId x s2 h).1

theorem runActions_no_self_sub (l : List Action) : ∀ s : State,
    (∀ sub ∈ s.subscriptions, sub.subscriberId ≠ sub.creatorId) →
    ∀ sub ∈ (runActions s l).subscriptions, sub.subscriberId ≠ sub.creatorId := by
  induction l with
  | nil => exact fun s h => h
  | cons a l2 ih =>
    intro s h
    refine ih (applyAction s a) ?_
    intro sub hmem
    rcases subscriptions_applyAction s a with heq | ⟨sub2, heq, hne⟩
    · exact h sub (heq ▸ hmem)
    · rw [heq, List.mem_append] at hmem
      rcases hmem with hmem2 | hmem2
      · exact h sub hmem2
      · rw [List.mem_singleton] at hmem2
        subst hmem2
        exact hne

/-- C5: the subscribe operation rejects self-subscription with InvalidInput;
for any other (requester, creator) pair it unconditionally appends a fresh
record with status "active" — no check against existing active subscriptions
— and no reachable store contains a subscription with
subscriberId = creatorId. -/
theorem subscribe_spec (s : State) (requester creatorUsername idv plan : String)
    (t : Nat) (u creator : User)
    (hu : getUserById s.users requester = some u)
    (hc : getUserByUsername s.users creatorUsername = some creator)
    (hrole : creator.role = "creator") :
    (creator.id = u.id →
      subscribeRoute s requester creatorUsername idv plan t = .error .invalidInput) ∧
    (creator.id ≠ u.id →
      subscribeRoute s requester creatorUsername idv plan t =
        .ok ({ id := idv, subscriberId := u.id, creatorId := creator.id,
               plan := if plan == "" then "monthly" else plan,
               status := "active", createdAt := t },
             { s with subscriptions := s.subscriptions ++
                 [{ id := idv, subscriberId := u.id, creatorId := creator.id,
                    plan := if plan == "" then "monthly" else plan,
                    status := "active", createdAt := t }] })) ∧
    (∀ s2, Reachable s2 → ∀ sub ∈ s2.subscriptions,
      sub.subscriberId ≠ sub.creatorId) := by
  refine ⟨?_, ?_, ?_⟩
  · intro h
    simp [subscribeRoute, hu, hc, hrole, h]
  · intro h
    simp [subscribeRoute, hu, hc, hrole, h]
  · rintro s2 ⟨l, rfl⟩ sub hmem
    exact runActions_no_self_sub l initState (by simp [initState]) sub hmem

/-- C5 witness: bo subscribes to ana although an active subscription for the
pair already exists (a new record is still created), and ana's attempt to
subscribe to herself is rejected. -/
theorem subscribe_spec_witness :
    isOkE (subscribeRoute subDemoState "u2" "ana" "s1" "" 5) = true ∧
    subscribeRoute demoUsersState "u1" "ana" "s2" "" 6 = .error .invalidInput := by
  constructor
  · rw [(subscribe_spec subDemoState "u2" "ana" "s1" "" 5 boUser anaUser rfl rfl
      rfl).2.1 (by decide)]
    rfl
  · exact (subscribe_spec demoUsersState "u1" "ana" "s2" "" 6 anaUser anaUser rfl rfl
      rfl).1 rfl

theorem find_storeItem_append (l : List StoreItem) (x : StoreItem) (i : String)
    (item : StoreItem) (h : findStoreItemById l i = some item) :
    findStoreItemById (l ++ [x]) i = some item := by
  unfold findStoreItemById at h ⊢
  rw [List.find?_append, h]
  rfl

theorem ordersInv_transfer (s s2 : State) (ho : s2.orders = s.orders)
    (hi : s2.storeItems = s.storeItems) (h : OrdersInv s) : OrdersInv s2 := by
  intro o hmem
  rw [ho] at hmem
  obtain ⟨item, hf, hne⟩ := h o hmem
  refine ⟨item, ?_, hne⟩
  rw [hi]
  exact hf

theorem ordersInv_append_item (s s2 : State) (it : StoreItem)
    (hi : s2.storeItems = s.storeItems ++ [it]) (ho : s2.orders = s.orders)
    (h : OrdersInv s) : OrdersInv s2 := by
  intro o hmem
  rw [ho] at hmem
  obtain ⟨item, hf, hne⟩ := h o hmem
  refine ⟨item, ?_, hne⟩
  rw [hi]
  exact find_storeItem_append _ _ _ _ hf

theorem ordersInv_applyAction (s : State) (a : Action) (h : OrdersInv s) :
    OrdersInv (applyAction s a) := by
  cases a with
  | register idv un em pw role t =>
    simp only [applyAction]
    rcases hres : registerRoute s idv un em pw role t with e | ⟨x, s2⟩
    · exact h
    · obtain ⟨_, ho, hi, _⟩ := registerRoute_ok s idv un em pw role t x s2 hres
      exact ordersInv_transfer s s2 ho hi h
  | updateProfileA requester body =>
    simp only [applyAction]
    rcases hres : updateProfileRoute s requester body with e | ⟨x, s2⟩
    · exact h
    · obtain ⟨_, ho, hi, _⟩ := updateProfileRoute_ok s requester body x s2 hres
      exact ordersInv_transfer s s2 ho hi h
  | createPostA requester idv content ptype price so tags t =>
    simp only [applyAction]
    rcases hres : createPostRoute s requester idv content ptype price so tags t with e | ⟨x, s2⟩
    · exact h
    · obtain ⟨_, ho, hi, _⟩ :=
        createPostRoute_ok s requester idv content ptype price so tags t x s2 hres
      exact ordersInv_transfer s s2 ho hi h
  | subscribeA requester cu idv plan t =>
    simp only [applyAction]
    rcases hres : subscribeRoute s requester cu idv plan t with e | ⟨x, s2⟩
    · exact h
    · obtain ⟨_, ho, hi, _, _, _⟩ := subscribeRoute_ok s requester cu idv plan t x s2 hres
      exact ordersInv_transfer s s2 ho hi h
  | createStoreItemA requester cu idv name description price t =>
    simp only [applyAction]
    rcases hres : createStoreItemRoute s requester cu idv name description price t with e | ⟨x, s2⟩
    · exact h
    · obtain ⟨hi, _, ho, _⟩ :=
        createStoreItemRoute_ok s requester cu idv name description price t x s2 hres
      exact ordersInv_append_item s s2 x hi ho h
  | placeOrderA requester itemId idv t =>
    simp only [applyAction]
    rcases hres : placeOrderRoute s requester itemId idv t with e | ⟨x, s2⟩
    · exact h
    · obtain ⟨ho, _, hi, _, item, hfind, hne⟩ :=
        placeOrderRoute_ok s requester itemId idv t x s2 hres
      intro o2 ho2
      have ho2b : o2 ∈ s2.orders := ho2
      rw [ho] at ho2b
      rcases List.mem_append.mp ho2b with hmem | hmem
      · obtain ⟨it2, hf2, hne2⟩ := h o2 hmem
        refine ⟨it2, ?_, hne2⟩
        show findStoreItemById s2.storeItems o2.itemId = some it2
        rw [hi]
        exact hf2
      · rw [List.mem_singleton] at hmem
        rw [hmem]
        refine ⟨item, ?_, hne⟩
        show findStoreItemById s2.storeItems x.itemId = some item
        rw [hi]
        exact hfind
  | createReferralA requester cb code comm idv t =>
    simp only [applyAction]
    rcases hres : createReferralRoute s requester cb code comm idv t with e | ⟨x, s2⟩
    · exact h
    · obtain ⟨_, _, _, _, ho, hi⟩ := createReferralRoute_ok s requester cb code comm idv t x s2 hres
      exact ordersInv_transfer s s2 ho hi h
  | recordSignupA code =>
    simp only [applyAction]
    rcases hres : recordSignupRoute s code with e | ⟨x, s2⟩
    · exact h
    · obtain ⟨_, _, ho, hi⟩ := recordSignupRoute_ok s code x s2 hres
      exact ordersInv_transfer s s2 ho hi h
  | addEarningA code amount =>
    simp only [applyAction]
    rcases hres : addEarningRoute s code amount with e | ⟨x, s2⟩
    · exact h
    · obtain ⟨_, _, ho, hi⟩ := addEarningRoute_ok s code amount x s2 hres
      exact ordersInv_transfer s s2 ho hi h
  | sendMessageA requester ru content idv t =>
    simp only [applyAction]
    rcases hres : sendMessageRoute s requester ru content idv t with e | ⟨x, s2⟩
    · exact h
    · obtain ⟨_, ho, hi, _⟩ := sendMessageRoute_ok s requester ru content idv t x s2 hres
      exact ordersInv_transfer s s2 ho hi h
  | sendTipA requester cu amount idv t =>
    simp only [applyAction]
    rcases hres : sendTipRoute s requester cu amount idv t with e | ⟨x, s2⟩
    · exact h
    · obtain ⟨_, ho, hi, _⟩ := sendTipRoute_ok s requester cu amount idv t x s2 hres
      exact ordersInv_transfer s s2 ho hi h
  | deletePostA requester postId =>
    simp only [applyAction]
    rcases hres : deletePostRoute s requester postId with e | ⟨x, s2⟩
    · exact h
    · obtain ⟨_, ho, hi, _⟩ := deletePostRoute_ok s requester postId x s2 hres
      exact ordersInv_transfer s s2 ho hi h

theorem runActions_ordersInv (l : List Action) : ∀ s : State,
    OrdersInv s → OrdersInv (runActions s l) := by
  induction l with
  | nil => exact fun s h => h
  | cons a l2 ih => exact fun s h => ih (applyAction s a) (ordersInv_applyAction s a h)

/-- C6: placing an order fails with NotFound when the item is absent, with
InvalidInput on self-purchase, and otherwise appends exactly one Order with
status "pending" for the item and buyer; in every reachable store no order's
buyer is the creator of the referenced item. -/
theorem placeOrder_spec (s : State) (requester itemId idv : String) (t : Nat)
    (u : User) (hu : getUserById s.users requester = some u) :
    (findStoreItemById s.storeItems itemId = none →
      placeOrderRoute s requester itemId idv t = .error .notFound) ∧
    (∀ item, findStoreItemById s.storeItems itemId = some item →
      item.creatorId = u.id →
      placeOrderRoute s requester itemId idv t = .error .invalidInput) ∧
    (∀ item, findStoreItemById s.storeItems itemId = some item →
      item.creatorId ≠ u.id →
      placeOrderRoute s requester itemId idv t =
        .ok ({ id := idv, itemId := item.id, buyerId := u.id, status := "pending",
               createdAt := t },
             { s with orders := s.orders ++
                 [{ id := idv, itemId := item.id, buyerId := u.id,
                    status := "pending", createdAt := t }] })) ∧
    (∀ s2, Reachable s2 → ∀ o ∈ s2.orders, ∀ item,
      findStoreItemById s2.storeItems o.itemId = some item →
      o.buyerId ≠ item.creatorId) := by
  refine ⟨?_, ?_, ?_, ?_⟩
  · intro hn
    simp [placeOrderRoute, hu, hn]
  · intro item hf heq
    simp [placeOrderRoute, hu, hf, heq]
  · intro item hf hne
    simp [placeOrderRoute, hu, hf, hne]
  · rintro s2 ⟨l, rfl⟩ o ho item hf
    have hinv : OrdersInv (runActions initState l) :=
      runActions_ordersInv l initState (by intro o2 ho2; simp [initState] at ho2)
    obtain ⟨item2, hf2, hne2⟩ := hinv o ho
    rw [hf] at hf2
    injection hf2 with h3
    rw [← h3] at hne2
    exact hne2

/-- C6 witness: bo can order ana's item (a pending order is created), while
ana ordering her own item is rejected with InvalidInput. -/
theorem placeOrder_spec_witness :
    placeOrderRoute itemDemoState "u2" "i1" "o1" 3 =
      .ok ({ id := "o1", itemId := "i1", buyerId := "u2", status := "pending",
             createdAt := 3 },
           { itemDemoState with orders := itemDemoState.orders ++
               [{ id := "o1", itemId := "i1", buyerId := "u2", status := "pending",
                  createdAt := 3 }] }) ∧
    placeOrderRoute itemDemoState "u1" "i1" "o2" 4 = .error .invalidInput := by
  constructor
  · exact (placeOrder_spec itemDemoState "u2" "i1" "o1" 3 boUser rfl).2.2.1
      demoItem rfl (by decide)
  · exact (placeOrder_spec itemDemoState "u1" "i1" "o2" 4 anaUser rfl).2.1
      demoItem rfl rfl

theorem updateFirstRef_get (l : List Referral) (code : String)
    (f : Referral → Referral) : ∀ i : Nat,
    (updateFirstRef l code f)[i]? = l[i]? ∨
    ∃ r, l[i]? = some r ∧ (updateFirstRef l code f)[i]? = some (f r) := by
  induction l with
  | nil => intro i; left; rfl
  | cons r rs ih =>
    intro i
    unfold updateFirstRef
    by_cases hc : (r.code == code) = true
    · rw [if_pos hc]
      cases i with
      | zero => right; exact ⟨r, by simp, by simp⟩
      | succ j => left; simp
    · rw [if_neg hc]
      cases i with
      | zero => left; simp
      | succ j =>
        rcases ih j with h1 | ⟨r2, h2, h3⟩
        · left; simpa using h1
        · right; exact ⟨r2, by simpa using h2, by simpa using h3⟩

theorem mem_updateFirstRef (l : List Referral) (code : String)
    (f : Referral → Referral) : ∀ r2 ∈ updateFirstRef l code f,
    r2 ∈ l ∨ ∃ r ∈ l, r2 = f r := by
  induction l with
  | nil => intro r2 h2; exact absurd h2 (by simp [updateFirstRef])
  | cons r rs ih =>
    intro r2 h2
    unfold updateFirstRef at h2
    by_cases hc : (r.code == code) = true
    · rw [if_pos hc] at h2
      rcases List.mem_cons.mp h2 with h3 | h3
      · right; exact ⟨r, List.mem_cons_self r rs, h3⟩
      · left; exact List.mem_cons_of_mem r h3
    · rw [if_neg hc] at h2
      rcases List.mem_cons.mp h2 with h3 | h3
      · left; rw [h3]; exact List.mem_cons_self r rs
      · rcases ih r2 h3 with h4 | ⟨r3, h5, h6⟩
        · left; exact List.mem_cons_of_mem r h4
        · right; exact ⟨r3, List.mem_cons_of_mem r h5, h6⟩

theorem earningsAt_frame (s s2 : State) (h : s2.referrals = s.referrals) (i : Nat) :
    earningsAt s i ≤ earningsAt s2 i := by
  unfold earningsAt
  rw [h]

theorem earningsAt_append (s s2 : State) (ref : Referral)
    (h : s2.referrals = s.referrals ++ [ref]) (h0 : ref.earnings = 0) (i : Nat) :
    earningsAt s i ≤ earningsAt s2 i := by
  unfold earningsAt
  rw [h]
  rcases Nat.lt_or_ge i s.referrals.length with hlt | hge
  · rw [List.getElem?_append_left hlt]
  · rw [List.getElem?_eq_none hge, List.getElem?_append_right hge]
    cases hd : i - s.referrals.length with
    | zero => simp [h0]
    | succ j => simp

theorem earningsAt_updateEarn (s s2 : State) (code : String) (q : ℚ)
    (h : s2.referrals = updateFirstRef s.referrals code
      (fun r => { r with earnings := r.earnings + q * r.commission }))
    (hq : 0 ≤ q) (hcomm : ∀ r ∈ s.referrals, 0 ≤ r.commission) (i : Nat) :
    earningsAt s i ≤ earningsAt s2 i := by
  unfold earningsAt
  rw [h]
  rcases updateFirstRef_get s.referrals code _ i with h1 | ⟨r, h2, h3⟩
  · rw [h1]
  · rw [h2, h3]
    simp only [Option.map_some', Option.getD_some]
    have hrc : 0 ≤ r.commission := hcomm r (List.getElem?_mem h2)
    have hnn : 0 ≤ q * r.commission := mul_nonneg hq hrc
    show r.earnings ≤ r.earnings + q * r.commission
    linarith

theorem earningsAt_updateSignup (s s2 : State) (code : String)
    (h : s2.referrals = updateFirstRef s.referrals code
      (fun r => { r with signups := r.signups + 1 })) (i : Nat) :
    earningsAt s i ≤ earningsAt s2 i := by
  unfold earningsAt
  rw [h]
  rcases updateFirstRef_get s.referrals code _ i with h1 | ⟨r, h2, h3⟩
  · rw [h1]
  · rw [h2, h3]
    simp only [Option.map_some', Option.getD_some]
    exact le_refl r.earnings

theorem comm_nonneg_frame (s s2 : State) (h : s2.referrals = s.referrals)
    (hcomm : ∀ r ∈ s.referrals, 0 ≤ r.commission) :
    ∀ r ∈ s2.referrals, 0 ≤ r.commission := by
  rw [h]; exact hcomm

theorem comm_nonneg_append (s s2 : State) (ref : Referral)
    (h : s2.referrals = s.referrals ++ [ref]) (hc : 0 ≤ ref.commission)
    (hcomm : ∀ r ∈ s.referrals, 0 ≤ r.commission) :
    ∀ r ∈ s2.referrals, 0 ≤ r.commission := by
  intro r hr
  rw [h, List.mem_append] at hr
  rcases hr with h1 | h1
  · exact hcomm r h1
  · rw [List.mem_singleton] at h1
    rw [h1]
    exact hc

theorem comm_nonneg_update (s s2 : State) (code : String) (f : Referral → Referral)
    (hf : ∀ r, (f r).commission = r.commission)
    (h : s2.referrals = updateFirstRef s.referrals code f)
    (hcomm : ∀ r ∈ s.referrals, 0 ≤ r.commission) :
    ∀ r ∈ s2.referrals, 0 ≤ r.commission := by
  intro r hr
  rw [h] at hr
  rcases mem_updateFirstRef s.referrals code f r hr with h1 | ⟨r2, h2, h3⟩
  · exact hcomm r h1
  · rw [h3, hf r2]
    exact hcomm r2 h2

theorem earnings_step (s : State) (a : Action) (hok : actionEarnOkB a = true)
    (hcomm : ∀ r ∈ s.referrals, 0 ≤ r.commission) :
    (∀ i, earningsAt s i ≤ earningsAt (applyAction s a) i) ∧
    (∀ r ∈ (applyAction s a).referrals, 0 ≤ r.commission) := by
  cases a with
  | register idv un em pw role t =>
    simp only [applyAction]
    rcases hres : registerRoute s idv un em pw role t with e | ⟨x, s2⟩
    · exact ⟨fun i => le_refl _, hcomm⟩
    · obtain ⟨_, _, _, hr⟩ := registerRoute_ok s idv un em pw role t x s2 hres
      exact ⟨earningsAt_frame s s2 hr, comm_nonneg_frame s s2 hr hcomm⟩
  | updateProfileA requester body =>
    simp only [applyAction]
    rcases hres : updateProfileRoute s requester body with e | ⟨x, s2⟩
    · exact ⟨fun i => le_refl _, hcomm⟩
    · obtain ⟨_, _, _, hr⟩ := updateProfileRoute_ok s requester body x s2 hres
      exact ⟨earningsAt_frame s s2 hr, comm_nonneg_frame s s2 hr hcomm⟩
  | createPostA requester idv content ptype price so tags t =>
    simp only [applyAction]
    rcases hres : createPostRoute s requester idv content ptype price so tags t with e | ⟨x, s2⟩
    · exact ⟨fun i => le_refl _, hcomm⟩
    · obtain ⟨_, _, _, hr⟩ :=
        createPostRoute_ok s requester idv content ptype price so tags t x s2 hres
      exact ⟨earningsAt_frame s s2 hr, comm_nonneg_frame s s2 hr hcomm⟩
  | subscribeA requester cu idv plan t =>
    simp only [applyAction]
    rcases hres : subscribeRoute s requester cu idv plan t with e | ⟨x, s2⟩
    · exact ⟨fun i => le_refl _, hcomm⟩
    · obtain ⟨_, _, _, hr, _, _⟩ := subscribeRoute_ok s requester cu idv plan t x s2 hres
      exact ⟨earningsAt_frame s s2 hr, comm_nonneg_frame s s2 hr hcomm⟩
  | createStoreItemA requester cu idv name description price t =>
    simp only [applyAction]
    rcases hres : createStoreItemRoute s requester cu idv name description price t with e | ⟨x, s2⟩
    · exact ⟨fun i => le_refl _, hcomm⟩
    · obtain ⟨_, _, _, hr⟩ :=
        createStoreItemRoute_ok s requester cu idv name description price t x s2 hres
      exact ⟨earningsAt_frame s s2 hr, comm_nonneg_frame s s2 hr hcomm⟩
  | placeOrderA requester itemId idv t =>
    simp only [applyAction]
    rcases hres : placeOrderRoute s requester itemId idv t with e | ⟨x, s2⟩
    · exact ⟨fun i => le_refl _, hcomm⟩
    · obtain ⟨_, _, _, hr, _⟩ := placeOrderRoute_ok s requester itemId idv t x s2 hres
      exact ⟨earningsAt_frame s s2 hr, comm_nonneg_frame s s2 hr hcomm⟩
  | createReferralA requester cb code comm idv t =>
    simp only [applyAction]
    rcases hres : createReferralRoute s requester cb code comm idv t with e | ⟨x, s2⟩
    · exact ⟨fun i => le_refl _, hcomm⟩
    · obtain ⟨hr, hE, hC, _, _, _⟩ :=
        createReferralRoute_ok s requester cb code comm idv t x s2 hres
      have hc : 0 ≤ x.commission := by
        rw [hC]
        cases comm with
        | none =>
          show (0 : ℚ) ≤ 0.2
          norm_num
        | some c =>
          have hc2 : 0 ≤ c := by simpa [actionEarnOkB] using hok
          show (0 : ℚ) ≤ if (c == 0) = true then 0.2 else c
          by_cases h0 : (c == 0) = true
          · rw [if_pos h0]; norm_num
          · rw [if_neg h0]; exact hc2
      exact ⟨earningsAt_append s s2 x hr hE, comm_nonneg_append s s2 x hr hc hcomm⟩
  | recordSignupA code =>
    simp only [applyAction]
    rcases hres : recordSignupRoute s code with e | ⟨x, s2⟩
    · exact ⟨fun i => le_refl _, hcomm⟩
    · obtain ⟨hr, _, _, _⟩ := recordSignupRoute_ok s code x s2 hres
      exact ⟨earningsAt_updateSignup s s2 code hr,
        comm_nonneg_update s s2 code
          (fun r2 => { r2 with signups := r2.signups + 1 }) (fun r => rfl) hr hcomm⟩
  | addEarningA code amount =>
    simp only [applyAction]
    rcases hres : addEarningRoute s code amount with e | ⟨x, s2⟩
    · exact ⟨fun i => le_refl _, hcomm⟩
    · obtain ⟨⟨q, ham, hr⟩, _, _, _⟩ := addEarningRoute_ok s code amount x s2 hres
      subst ham
      have hq : 0 ≤ q := by simpa [actionEarnOkB, numVal] using hok
      exact ⟨earningsAt_updateEarn s s2 code q hr hq hcomm,
        comm_nonneg_update s s2 code
          (fun r2 => { r2 with earnings := r2.earnings + q * r2.commission })
          (fun r => rfl) hr hcomm⟩
  | sendMessageA requester ru content idv t =>
    simp only [applyAction]
    rcases hres : sendMessageRoute s requester ru content idv t with e | ⟨x, s2⟩
    · exact ⟨fun i => le_refl _, hcomm⟩
    · obtain ⟨_, _, _, hr⟩ := sendMessageRoute_ok s requester ru content idv t x s2 hres
      exact ⟨earningsAt_frame s s2 hr, comm_nonneg_frame s s2 hr hcomm⟩
  | sendTipA requester cu amount idv t =>
    simp only [applyAction]
    rcases hres : sendTipRoute s requester cu amount idv t with e | ⟨x, s2⟩
    · exact ⟨fun i => le_refl _, hcomm⟩
    · obtain ⟨_, _, _, hr⟩ := sendTipRoute_ok s requester cu amount idv t x s2 hres
      exact ⟨earningsAt_frame s s2 hr, comm_nonneg_frame s s2 hr hcomm⟩
  | deletePostA requester postId =>
    simp only [applyAction]
    rcases hres : deletePostRoute s requester postId with e | ⟨x, s2⟩
    · exact ⟨fun i => le_refl _, hcomm⟩
    · obtain ⟨_, _, _, hr⟩ := deletePostRoute_ok s requester postId x s2 hres
      exact ⟨earningsAt_frame s s2 hr, comm_nonneg_frame s s2 hr hcomm⟩

/-- C4 (amended): a referral's earnings never decrease across any sequence of
API operations, PROVIDED every recorded earning amount is non-negative and
every commission (stored or supplied) is non-negative; the unrestricted claim
fails because the interface accepts negative numeric amounts (see the
counterexample), which strictly decrease earnings. -/
theorem referral_earnings_monotone (s : State) (l : List Action)
    (hok : ∀ a ∈ l, actionEarnOkB a = true)
    (hcomm : ∀ r ∈ s.referrals, 0 ≤ r.commission) :
    ∀ i, earningsAt s i ≤ earningsAt (runActions s l) i := by
  induction l generalizing s with
  | nil => intro i; exact le_refl _
  | cons a l2 ih =>
    intro i
    have h1 := earnings_step s a (hok a (List.mem_cons_self a l2)) hcomm
    have h2 := ih (applyAction s a) (fun b hb => hok b (List.mem_cons_of_mem a hb)) h1.2
    exact le_trans (h1.1 i) (h2 i)

/-- C4 witness: from a store holding the referral "REF" with commission 0.2,
a non-negative earning leaves its earnings no smaller. -/
theorem referral_earnings_monotone_witness :
    earningsAt refDemoState 0 ≤
      earningsAt (runActions refDemoState [.addEarningA "REF" (.vNum 3)]) 0 :=
  referral_earnings_monotone refDemoState [.addEarningA "REF" (.vNum 3)]
    (by intro a ha; rw [List.mem_singleton] at ha; rw [ha]; decide)
    (by intro r hr
        have h2 : r = demoReferral := by
          simpa [refDemoState, demoUsersState] using hr
        rw [h2]
        norm_num [demoReferral]) 0

/-- C2 (amended): referral creation performs NO duplicate-code check — for
any authenticated requester and truthy code it always succeeds and appends a
new record with that code, even when a referral with the same code already
exists, so Referral.code is not unique (duplicates are reachable). -/
theorem createReferral_always_appends (s : State) (requester : String)
    (cb : Option String) (code : String) (comm : Option ℚ) (idv : String)
    (t : Nat) (u : User) (hu : getUserById s.users requester = some u)
    (hcode : code ≠ "") :
    createReferralRoute s requester cb code comm idv t =
      .ok ({ id := idv, creatorId := cb.getD u.id, affiliateId := u.id,
             code := code, commission := commEffective comm,
             signups := 0, earnings := 0, createdAt := t },
           { s with referrals := s.referrals ++
               [{ id := idv, creatorId := cb.getD u.id, affiliateId := u.id,
                  code := code, commission := commEffective comm,
                  signups := 0, earnings := 0, createdAt := t }] }) := by
  simp [createReferralRoute, hu, hcode]

/-- C2 witness: even though the code "REF" is already taken in the store,
creating it again succeeds and returns a referral with that code. -/
theorem createReferral_always_appends_witness :
    (getReferralByCode refDemoState.referrals "REF").isSome = true ∧
    okRefCode (createReferralRoute refDemoState "u1" none "REF" none "r9" 9) =
      some "REF" := by
  constructor
  · decide
  · rw [createReferral_always_appends refDemoState "u1" none "REF" none "r9" 9
      anaUser rfl (by decide)]
    rfl

/-- C7 (amended): store-item creation (for the authorized creator) fails with
InvalidInput exactly when the name is falsy or the price is not numeric — no
lower bound on the price is checked — and for ANY numeric price, including
negative ones, it succeeds and stores that price. -/
theorem createStoreItem_validation (s : State) (requester creatorUsername idv : String)
    (name description price : JSValue) (t : Nat) (u creator : User)
    (hu : getUserById s.users requester = some u)
    (hc : getUserByUsername s.users creatorUsername = some creator)
    (hid : creator.id = u.id) :
    (createStoreItemRoute s requester creatorUsername idv name description price t =
        .error .invalidInput ↔
      (truthy name = false ∨ typeofJS price ≠ "number")) ∧
    (truthy name = true → typeofJS price = "number" →
      createStoreItemRoute s requester creatorUsername idv name description price t =
        .ok ({ id := idv, creatorId := u.id, name := strVal name,
               description := if truthy description then description else .vStr "",
               price := numVal price, createdAt := t },
             { s with storeItems := s.storeItems ++
                 [{ id := idv, creatorId := u.id, name := strVal name,
                    description := if truthy description then description else .vStr "",
                    price := numVal price, createdAt := t }] })) := by
  constructor
  · constructor
    · intro h
      by_cases hn : truthy name = true
      · by_cases hp : typeofJS price = "number"
        · exfalso
          simp [createStoreItemRoute, hu, hc, hid, hn, hp] at h
        · exact Or.inr hp
      · exact Or.inl (by simpa using hn)
    · intro h
      rcases h with h | h
      · simp [createStoreItemRoute, hu, hc, hid, h]
      · simp [createStoreItemRoute, hu, hc, hid, h]
  · intro hn hp
    simp [createStoreItemRoute, hu, hc, hid, hn, hp]

/-- C7 witness: with a truthy name, the negative numeric price −7 is accepted
and stored as given. -/
theorem createStoreItem_validation_witness :
    routePrice (createStoreItemRoute demoUsersState "u1" "ana" "i9" (.vStr "tee")
      .vUndefined (.vNum (-7)) 7) = some (-7) := by
  rw [(createStoreItem_validation demoUsersState "u1" "ana" "i9" (.vStr "tee")
    .vUndefined (.vNum (-7)) 7 anaUser anaUser rfl rfl rfl).2 rfl rfl]
  rfl

end Fansnap
